import Mathlib

/-!
Verification development for the Jooble job scraper (Apify/Crawlee actor).

The repository ships several near-duplicate scraper variants:
  * src/src/main.js        — two variants: a CheerioCrawler actor ("main v1")
                             and a PlaywrightCrawler actor ("main v2").
  * src/unnamed/part_000   — a CheerioCrawler variant with JSON-LD extraction.
  * src/unnamed/part_001   — a stealth CheerioCrawler variant.
  * src/unnamed/part_002   — three variants; the third ("p2 v3") carries the
                             budget accounting (saved/plannedDetails), the
                             block gate, cookie-jar merging and backoff.
  * src/unnamed/part_003   — two variants; the first ("p3 v1") has a detail
                             handler without a title gate, the second carries
                             the input sanitizing.

Each definition below is a shallow embedding of one of those source
functions; doc comments cite the file and line range it was translated from.
External collaborators (the DOM query engine, URL resolution, the JSON
parser, the wall clock, the crawler request queue) enter as explicit
parameters or as pre-parsed values, exactly at the boundary where the
source calls into a library.
-/

namespace Jooble

/-! ## Substring matching (models the literal-alternation regexes) -/

/-- True when the needle is a leading segment of the haystack
(character-by-character comparison). -/
def leadMatch : List Char → List Char → Bool
  | [], _ => true
  | _ :: _, [] => false
  | n :: ns, h :: hs => n == h && leadMatch ns hs

/-- True when the needle occurs contiguously somewhere in the haystack. -/
def containsSeq (needle : List Char) : List Char → Bool
  | [] => needle.isEmpty
  | h :: hs => leadMatch needle (h :: hs) || containsSeq needle hs

/-- Substring test on strings, used to model both the literal-alternation
regexes and the JS String.includes calls of the source. -/
def strContains (haystack needle : String) : Bool :=
  containsSeq needle.toList haystack.toList

/-! ## Block classifier (part_002 v3)

`isCookieOrBotWall` is from src/unnamed/part_002 lines 607-610: the regex
there is an alternation of literal phrases with the i-flag applied to the
lowercased body, so it is exactly "some phrase occurs in the lowercased
body". -/

/-- The block-signal phrase alternatives of the regex in
src/unnamed/part_002 line 609. -/
def blockSignalPhrases : List String :=
  ["are you human", "verify you are human", "captcha", "cloudflare",
   "before you continue to jooble", "accept our cookies", "consent",
   "access denied"]

/-- Character-wise lowercasing (the JS `toLowerCase()` applied to the body). -/
def lowerChars (cs : List Char) : List Char := cs.map Char.toLower

/-- src/unnamed/part_002 lines 607-610 (isCookieOrBotWall). -/
def isCookieOrBotWall (html : String) : Bool :=
  blockSignalPhrases.any (fun p => containsSeq p.toList (lowerChars html.toList))

/-- Outcome of the blocking/throttling gate at the top of the part_002 v3
requestHandler. `blockedMarkBad`/`blockedRetire` end in the thrown
"Blocked" error after the session action and a backoff sleep; `httpError`
is the thrown generic "HTTP status" error; `proceed` continues into the
SEARCH/DETAIL logic. -/
inductive BlockOutcome where
  | blockedMarkBad
  | blockedRetire
  | httpError
  | proceed
deriving DecidableEq, Repr

/-- src/unnamed/part_002 lines 736-749: the body/status gate of the v3
requestHandler. The source tests
`!body || status === 401 || status === 403 || status === 429 ||
isCookieOrBotWall(body)` first (marking the session bad on 429, retiring it
otherwise), and only afterwards `status >= 400`. -/
def crawlGate (status : Nat) (body : String) : BlockOutcome :=
  if body = "" ∨ status = 401 ∨ status = 403 ∨ status = 429 ∨
      isCookieOrBotWall body = true then
    if status = 429 then .blockedMarkBad else .blockedRetire
  else if 400 ≤ status then .httpError
  else .proceed

/-- Outcome of one transport attempt (spec §3 FetchResult). A transport
error means the crawler never invokes the requestHandler for this attempt
and routes the request through its retry/failed path. -/
structure FetchResult where
  transportError : Bool
  statusCode : Nat
  body : String
deriving DecidableEq, Repr

/-- Spec §3/§4.2 Classification. -/
inductive Classification where
  | Ok
  | SoftBlock
  | HardBlock
  | TransportError
deriving DecidableEq, Repr

/-- The classifier exactly as the claim words it (spec §4.2 rules 1-5, in
strict order, status rules before body matching). Kept separate from the
source-derived `crawlGate` so the two can be compared. -/
def classifySpec (r : FetchResult) : Classification :=
  if r.transportError then .TransportError
  else if r.statusCode = 401 ∨ r.statusCode = 403 ∨ r.statusCode = 429 then .HardBlock
  else if 400 ≤ r.statusCode then .TransportError
  else if isCookieOrBotWall r.body = true then .SoftBlock
  else .Ok

/-- The source behaviour mapped onto the spec's Classification alphabet:
a transport error bypasses the handler and is a retried generic failure
(TransportError); a blocked outcome at a hard status (401/403/429) is the
status-level denial (HardBlock); any other blocked outcome (empty body or
block-phrase body) is the content-level wall (SoftBlock); the generic
HTTP-error throw is TransportError; proceed is Ok. -/
def classifyCode (r : FetchResult) : Classification :=
  if r.transportError then .TransportError
  else
    match crawlGate r.statusCode r.body with
    | .blockedMarkBad => .HardBlock
    | .blockedRetire =>
        if r.statusCode = 401 ∨ r.statusCode = 403 then .HardBlock else .SoftBlock
    | .httpError => .TransportError
    | .proceed => .Ok

/-! ## Retry backoff (part_002 v3) -/

/-- src/unnamed/part_002 lines 626: `rand(min, max)` is
`Math.random() * (max - min) + min`; `draw` stands for the Math.random()
result in [0, 1). -/
def randUniform (draw lo hi : ℚ) : ℚ := draw * (hi - lo) + lo

/-- src/unnamed/part_002 lines 741-742: `attempt = (request.retryCount ?? 0) + 1`
and `backoffMs = Math.min(15000, 500 * 2 ** attempt + rand(0, 500))`. -/
def codeBackoffMs (retryCount : Nat) (draw : ℚ) : ℚ :=
  min 15000 (500 * 2 ^ (retryCount + 1) + randUniform draw 0 500)

/-- The backoff formula exactly as the claim words it:
`min(cap, base * 2 ^ attempt * jitter)` with multiplicative jitter. Kept
separate from the source-derived `codeBackoffMs` for comparison. -/
def specBackoffDelay (cap base : ℚ) (attempt : Nat) (jitter : ℚ) : ℚ :=
  min cap (base * 2 ^ attempt * jitter)

/-! ## Frontier (request queue) and per-page link dedup

The Frontier itself (spec §4.4) is realized by the crawler library's
request queue, which is a dependency and not under src/; only its callers
are. It is therefore modelled from the spec below, while the per-page
dedup code cited by the claim (main.js handleSearchPage, part_000
findJobLinks) is embedded from the source. -/

/-- Modelled from the spec: the Frontier's state — the grow-only seen-set
keyed on the normalized URL, the pending queue, and the history of
dequeued URLs. The source delegates this to the crawler library's request
queue (enqueueLinks / addRequests dedup on the request's unique key),
which is absent from src/. -/
structure Frontier where
  seen : List String
  queue : List String
  dequeued : List String
deriving DecidableEq, Repr

/-- An operation on the Frontier. Abandoning a task touches neither the
seen-set nor the queue, so it needs no constructor of its own. -/
inductive FrontierOp where
  | enqueue (url : String)
  | dequeue
deriving DecidableEq, Repr

def emptyFrontier : Frontier := ⟨[], [], []⟩

/-- Modelled from the spec: `enqueue` rejects with no side effect when the
normalized url is already seen, otherwise records it as seen and appends
it to the queue; `dequeue` pops the queue head into the dequeue history
and never removes anything from the seen-set. -/
def applyOp (f : Frontier) : FrontierOp → Frontier
  | .enqueue u =>
      if u ∈ f.seen then f
      else { seen := u :: f.seen, queue := f.queue ++ [u], dequeued := f.dequeued }
  | .dequeue =>
      match f.queue with
      | [] => f
      | u :: rest => { seen := f.seen, queue := rest, dequeued := u :: f.dequeued }

def runOps (f : Frontier) (ops : List FrontierOp) : Frontier := ops.foldl applyOp f

/-- The Frontier invariant: no URL occurs twice across the dequeue history
and the pending queue, and every such URL has been recorded as seen. -/
def FrontierInv (f : Frontier) : Prop :=
  (f.dequeued ++ f.queue).Nodup ∧ ∀ u ∈ f.dequeued ++ f.queue, u ∈ f.seen

/-- src/src/main.js lines 262-270 (handleSearchPage): one anchor href step.
The source keeps an href when it contains "/desc/", absolutizes it by
prefixing the site origin unless it already starts with "http", and pushes
it only if not already collected. -/
def fullJobUrl (href : String) : String :=
  if href.startsWith "http" then href else "https://jooble.org" ++ href

def addJobLink (acc : List String) (href : String) : List String :=
  if strContains href "/desc/" then
    if fullJobUrl href ∈ acc then acc else acc ++ [fullJobUrl href]
  else acc

/-- src/src/main.js lines 261-270: the jobLinks collection loop over the
hrefs of the page's anchors (absent href attributes already excluded). -/
def collectJobLinks (hrefs : List String) : List String :=
  hrefs.foldl addJobLink []

/-- src/unnamed/part_000 lines 88-102: one step of the Set-insertion in
findJobLinks. `resolve` stands for `new URL(href, base).href` (external
URL resolution), returning none when the constructor throws; the JS Set
keeps first-insertion order, modelled as an ordered duplicate-free list. -/
def addResolved (resolve : String → Option String) (acc : List String) (href : String) :
    List String :=
  match resolve href with
  | some abs => if abs ∈ acc then acc else acc ++ [abs]
  | none => acc

/-- src/unnamed/part_000 lines 84-104 (findJobLinks): first the anchors
inside the vacancy list, then all "/desc/" anchors, accumulated into one
Set and returned in insertion order. -/
def findJobLinks (resolve : String → Option String)
    (preferredHrefs allHrefs : List String) : List String :=
  allHrefs.foldl (addResolved resolve) (preferredHrefs.foldl (addResolved resolve) [])

/-! ## Budget accounting of the part_002 v3 crawler

`plannedDetails`/`saved` are module-level mutable counters in
src/unnamed/part_002 (lines 657-658). The SEARCH branch admits detail
links one at a time under the `saved + plannedDetails < maxItems` check;
the DETAIL branch decrements the planned count, guards on
`saved < maxItems`, pushes the record and only then increments `saved`.
-/

/-- src/unnamed/part_002 lines 763-773: the detail-admission loop of the
SEARCH branch. Each entry of `links` is the request queue's verdict for
that link (whether enqueueLinks reported a processed request — the queue's
URL dedup is external state). Returns the updated planned count and, for
each enqueueLinks call actually made, the (saved, planned) counters read
at that moment. -/
def detailAdmissionLoop (maxItems saved : Nat) :
    List Bool → Nat → Nat × List (Nat × Nat)
  | [], planned => (planned, [])
  | accepted :: rest, planned =>
    if maxItems ≤ saved + planned then (planned, [])
    else
      let planned1 := if accepted then planned + 1 else planned
      let r := detailAdmissionLoop maxItems saved rest planned1
      (r.1, (saved, planned) :: r.2)

/-- Result of one SEARCH-branch execution in the part_002 v3 handler. -/
structure SearchStepResult where
  plannedAfter : Nat
  admissions : List (Nat × Nat)
  nextEnqueued : Bool
deriving DecidableEq, Repr

/-- src/unnamed/part_002 lines 751-793: the SEARCH branch. Early return
when `saved >= maxItems`; early return when no detail link was found AND
the page shows an explicit no-results marker; otherwise run the admission
loop and enqueue the next listing page iff `page < maxPages` and
`saved + plannedDetails < maxItems` with the post-loop planned count. -/
def handleSearchP2 (maxItems maxPages saved planned page : Nat)
    (links : List Bool) (noResultsMarker : Bool) : SearchStepResult :=
  if maxItems ≤ saved then ⟨planned, [], false⟩
  else if links = [] ∧ noResultsMarker = true then ⟨planned, [], false⟩
  else
    let r := detailAdmissionLoop maxItems saved links planned
    ⟨r.1, r.2, decide (page < maxPages ∧ saved + r.1 < maxItems)⟩

/-- src/src/main.js lines 282-300 (handleSearchPage, main v1): the next
listing page is enqueued iff `currentPage < maxPages` and at least one
job link was collected. That variant has no item budget. -/
def handleSearchMainNext (jobLinks : List String) (page maxPages : Nat) : Bool :=
  decide (page < maxPages) && decide (0 < jobLinks.length)

/-- The pagination condition exactly as the claim words it: at least one
detail link found, next page within maxPages, and the Completion Policy
has not signaled stop. Kept separate from the source-derived handlers for
comparison. -/
def specNextPageCond (foundAnyLink : Bool) (nextPage maxPages : Nat)
    (stopSignaled : Bool) : Bool :=
  foundAnyLink && decide (nextPage ≤ maxPages) && !stopSignaled

/-! ## The DETAIL branch as interleavable phases (part_002 v3)

src/unnamed/part_002 lines 796-861. The handler body is synchronous from
entry up to the awaited `Dataset.pushData` call, and resumes with
`saved++` after that await. Under the crawler's default concurrency
(maxConcurrency = 3 in this variant) several DETAIL handlers are in
flight at once and the event loop may run another handler's first phase
while one is suspended at the push. Each task therefore has two atomic
phases:

  phase 0 — handler entry: decrement plannedDetails when the request was
            admitted as planned (Math.max(0, x-1) is Nat subtraction),
            return early when `saved >= maxItems` or no title was
            extracted, otherwise hand the record to the sink (the push
            call) and suspend;
  phase 1 — resume after the awaited push: `saved++`.
-/

/-- One in-flight DETAIL request: its `planned` userData flag, whether
extraction finds a title, and its phase (0 not started, 1 suspended at
the awaited push, 2 finished). -/
structure DetailTask where
  plannedFlag : Bool
  hasTitle : Bool
  phase : Nat
deriving DecidableEq, Repr

/-- The module-level counters of part_002 v3 (lines 657-658) plus the
output-sink record count and the in-flight DETAIL tasks. -/
structure CrawlCounters where
  maxItems : Nat
  saved : Nat
  plannedDetails : Nat
  emitted : Nat
  tasks : List DetailTask
deriving DecidableEq, Repr

/-- Run one atomic phase of task `i` (no-op for an absent or finished
task). Translated from src/unnamed/part_002 lines 796-861 split at the
awaited Dataset.pushData. -/
def detailStep (s : CrawlCounters) (i : Nat) : CrawlCounters :=
  match s.tasks[i]? with
  | none => s
  | some t =>
    if t.phase = 0 then
      let planned1 := if t.plannedFlag then s.plannedDetails - 1 else s.plannedDetails
      if s.maxItems ≤ s.saved then
        { s with plannedDetails := planned1,
                 tasks := s.tasks.set i ⟨false, t.hasTitle, 2⟩ }
      else if t.hasTitle then
        { s with plannedDetails := planned1, emitted := s.emitted + 1,
                 tasks := s.tasks.set i ⟨false, t.hasTitle, 1⟩ }
      else
        { s with plannedDetails := planned1,
                 tasks := s.tasks.set i ⟨false, t.hasTitle, 2⟩ }
    else if t.phase = 1 then
      { s with saved := s.saved + 1, tasks := s.tasks.set i ⟨t.plannedFlag, t.hasTitle, 2⟩ }
    else s

/-- Run the DETAIL phases in the order given by an event-loop schedule. -/
def runDetailSched (s : CrawlCounters) (sched : List Nat) : CrawlCounters :=
  sched.foldl detailStep s

/-- A crawl with `maxItems = 1` and two admitted DETAIL requests, both of
whose pages carry a title. -/
def raceInit : CrawlCounters :=
  { maxItems := 1, saved := 0, plannedDetails := 2, emitted := 0,
    tasks := [⟨true, true, 0⟩, ⟨true, true, 0⟩] }

/-! ## Detail-page record extraction and the title gate

The DOM is external: a page is modelled by the query results the source
reads from it — `pageSel s` is the trimmed text of the first node matching
selector group `s` (empty when nothing matches), `pageHtml s` its inner
HTML (empty models the null return), `pageAttr s` an attribute lookup,
`resolveUrl` is `new URL(href, base).href`, and `now` the wall-clock
timestamp string. -/

/-- Whitespace normalization `replace(/\s+/g, ' ').trim()`: collapse runs
of whitespace to single spaces and drop leading/trailing whitespace. -/
def normalizeWs (s : String) : String :=
  String.intercalate " " ((s.split Char.isWhitespace).filter (fun w => ¬ w.isEmpty))

/-- src/src/main.js lines 310-316 (and part_002 lines 180-186, part_003
lines 575-581): the getFirst selector cascade — first selector whose
trimmed text is non-empty wins, else empty string. -/
def getFirstSel (pageSel : String → String) : List String → String
  | [] => ""
  | s :: rest =>
    let txt := pageSel s
    if txt = "" then getFirstSel pageSel rest else txt

/-- The record built by the main v1 detail handler
(src/src/main.js lines 336-349). -/
structure MainJobRecord where
  title : String
  company : String
  location : String
  salary : String
  descriptionHtml : String
  descriptionText : String
  jobUrl : String
  datePosted : Option String
  jobType : Option String
  jobCategory : Option String
  scrapedAt : String
  src : String
deriving DecidableEq, Repr

/-- src/src/main.js lines 306-358 (handleDetailPage, main v1): build the
record from the selector cascades, then push it iff its title is
non-empty — `some` is the emitted record, `none` means nothing reaches
the output sink. -/
def handleDetailPageMain (pageSel : String → String) (pageHtml : String → String)
    (pageRawText : String → String) (url now : String) : Option MainJobRecord :=
  let descGroup := ".job-description, .description, .vacancy-description, .content, main"
  let datePostedTxt := getFirstSel pageSel [".date", ".posted", ".time"]
  let job : MainJobRecord :=
    { title := getFirstSel pageSel ["h1", ".job-title", ".title"],
      company := getFirstSel pageSel [".company", ".employer", ".company-name"],
      location := getFirstSel pageSel [".location", ".job-location"],
      salary := getFirstSel pageSel [".salary", ".pay", ".compensation"],
      descriptionHtml := pageHtml descGroup,
      descriptionText := normalizeWs (pageRawText descGroup),
      jobUrl := url,
      datePosted := if datePostedTxt = "" then none else some datePostedTxt,
      jobType := none, jobCategory := none,
      scrapedAt := now, src := "Jooble" }
  if job.title = "" then none else some job

/-- The record built by the p3 v1 detail handler
(src/unnamed/part_003 lines 312-338). -/
structure P3JobRecord where
  title : String
  company : String
  location : String
  salary : String
  jobType : String
  experience : String
  description : String
  requirements : String
  benefits : String
  postedDate : String
  applicationUrl : Option String
  sourceUrl : String
  src : String
  scrapedAt : String
deriving DecidableEq, Repr

/-- src/unnamed/part_003 lines 303-347 (handleDetailPage, p3 v1): build
the record from the selectors.detail cascades, normalize the description
when non-empty, and push it unconditionally — there is no title check in
this variant. -/
def handleDetailPageP3 (pageSel : String → String) (pageAttr : String → Option String)
    (resolveUrl : String → String) (url now : String) : Option P3JobRecord :=
  let description :=
    getFirstSel pageSel [".job-description", ".vacancy-description",
      "[data-qa=\"job-description\"]", ".description", ".content"]
  let appHref := pageAttr ".apply-button, .apply-link, [data-qa=\"apply-link\"], a[data-apply]"
  let job : P3JobRecord :=
    { title := getFirstSel pageSel [".job-title", ".vacancy-title", "h1", "[data-qa=\"job-title\"]"],
      company := getFirstSel pageSel [".company-name", ".employer", "[data-qa=\"company-name\"]"],
      location := getFirstSel pageSel [".job-location", ".location", "[data-qa=\"job-location\"]"],
      salary := getFirstSel pageSel [".salary", ".compensation", "[data-qa=\"salary\"]"],
      jobType := getFirstSel pageSel [".job-type", ".employment-type", "[data-qa=\"employment-type\"]"],
      experience := getFirstSel pageSel [".experience", ".seniority", "[data-qa=\"experience-level\"]"],
      description := if description = "" then description else normalizeWs description,
      requirements := getFirstSel pageSel [".requirements", ".qualifications", "[data-qa=\"requirements\"]"],
      benefits := getFirstSel pageSel [".benefits", ".perks", "[data-qa=\"benefits\"]"],
      postedDate := getFirstSel pageSel [".posting-date", ".date", "[data-qa=\"posting-date\"]"],
      applicationUrl :=
        match appHref with
        | none => none
        | some href => some (if href.startsWith "http" then href else resolveUrl href),
      sourceUrl := url, src := "Jooble", scrapedAt := now }
  some job

/-! ## Two-tier record extraction (main v2, PlaywrightCrawler variant)

src/src/main.js lines 402-453 (extractJobData): tier 1 copies the fields
of a JSON-LD JobPosting (each `x || ''` chain flattened to a String that
is empty when the optional chain misses); tier 2 fills only the fields
still empty afterwards from the fallback locators. `locatorText s` is the
text content of the first node matching locator group `s` (already
defaulted to the empty string, as in the source's `.catch(() => '') || ''`).
-/

/-- The JSON-LD JobPosting fields read by tier 1, post the source's
`|| ''` defaulting (a missing field is the empty string). -/
structure LdJobPosting where
  title : String
  hiringOrganizationName : String
  addressLocality : String
  baseSalaryValue : String
  datePosted : String
  employmentType : String
  description : String
deriving DecidableEq, Repr

/-- The record assembled by extractJobData (src/src/main.js lines 403-413). -/
structure PwJobData where
  title : String
  company : String
  location : String
  salary : String
  datePosted : String
  jobType : String
  description : String
  jobUrl : String
  scrapedAt : String
deriving DecidableEq, Repr

/-- src/src/main.js lines 402-453 (extractJobData, main v2): structured
data first, then per-field heuristic fallback guarded by `if (!data.f)`. -/
def extractJobData (jsonLd : Option LdJobPosting) (locatorText : String → String)
    (url now : String) : PwJobData :=
  let d0 : PwJobData :=
    { title := "", company := "", location := "", salary := "",
      datePosted := "", jobType := "", description := "",
      jobUrl := url, scrapedAt := now }
  let d1 :=
    match jsonLd with
    | some ld =>
        { d0 with title := ld.title, company := ld.hiringOrganizationName,
                  location := ld.addressLocality, salary := ld.baseSalaryValue,
                  datePosted := ld.datePosted, jobType := ld.employmentType,
                  description := ld.description }
    | none => d0
  let d2 := if d1.title = "" then
      { d1 with title := locatorText "h1, .job-title, .vacancy-title" } else d1
  let d3 := if d2.company = "" then
      { d2 with company := locatorText ".company, .employer, .company-name" } else d2
  let d4 := if d3.location = "" then
      { d3 with location := locatorText ".location, .job-location" } else d3
  let d5 := if d4.salary = "" then
      { d4 with salary := locatorText ".salary, .compensation" } else d4
  if d5.description = "" then
    { d5 with description := ((locatorText ".job-description, main, article").trim).take 5000 }
  else d5

/-! ## Cookie jar (part_002 v3)

A session's cookie jar is a JS object (name → value); it is modelled as an
association list operated on only through the object-semantics helpers
below. -/

/-- JS object property assignment `jar[n] = v`: overwrite when the name is
present, append otherwise. -/
def setCookie (jar : List (String × String)) (n v : String) : List (String × String) :=
  if jar.any (fun p => p.1 = n) then
    jar.map (fun p => if p.1 = n then (n, v) else p)
  else jar ++ [(n, v)]

/-- JS `delete jar[n]`. -/
def delCookie (jar : List (String × String)) (n : String) : List (String × String) :=
  jar.filter (fun p => ¬ p.1 = n)

/-- Property read `jar[n]` (none models undefined). -/
def jarGet (jar : List (String × String)) (n : String) : Option String :=
  (jar.find? (fun p => p.1 = n)).map (fun p => p.2)

/-- src/unnamed/part_002 lines 544-554 (mergeCookies): copy the target and
walk the updates in order — an empty (or undefined, unrepresentable here
since parsing always yields strings) new value deletes the cookie,
anything else overwrites it. -/
def mergeCookies (target updates : List (String × String)) : List (String × String) :=
  updates.foldl (fun acc u => if u.2 = "" then delCookie acc u.1 else setCookie acc u.1 u.2)
    target

/-- src/unnamed/part_002 lines 528-542 (parseSetCookieHeaders): for each
Set-Cookie header take the part before the first ";", split it at the
first "=", trim name and value, skip entries without "=" or with an empty
name, and assign into one object (a later same-named pair overwrites). -/
def parseSetCookieHeaders (headers : List String) : List (String × String) :=
  headers.foldl
    (fun acc h =>
      let pair := (h.splitOn ";").headD ""
      match pair.splitOn "=" with
      | [] => acc
      | [_] => acc
      | name :: rest =>
        let n := name.trim
        let v := (String.intercalate "=" rest).trim
        if n = "" then acc else setCookie acc n v)
    []

/-! ## JSON-LD structured-data scan (part_000)

JSON.parse is the runtime's parser; a script block enters the model as the
parse outcome — `none` when the parser throws (which the source catches),
`some j` with the parsed value otherwise. -/

/-- A parsed JSON value. -/
inductive Json where
  | null
  | bool (b : Bool)
  | num (n : Int)
  | str (s : String)
  | arr (elems : List Json)
  | obj (fields : List (String × Json))

/-- JS truthiness of a JSON value. -/
def Json.truthy : Json → Bool
  | .null => false
  | .bool b => b
  | .num n => ¬ n = 0
  | .str s => ¬ s.isEmpty
  | .arr _ => true
  | .obj _ => true

/-- Property access `j[k]` (none models undefined: missing key or non-object). -/
def Json.getField : Json → String → Option Json
  | .obj fields, k => (fields.find? (fun p => p.1 = k)).map (fun p => p.2)
  | _, _ => none

/-- JS `a || b` over possibly-undefined values: keep `a` when truthy. -/
def jsOr (a b : Option Json) : Option Json :=
  match a with
  | some v => if v.truthy then some v else b
  | none => b

/-- JS `a || null`: a falsy or missing value becomes null/none. -/
def jsOrNull (a : Option Json) : Option Json := jsOr a none

/-- src/unnamed/part_000 line 68: `const t = e['@type'] || e.type`. -/
def typeField (e : Json) : Option Json :=
  jsOr (e.getField "@type") (e.getField "type")

/-- src/unnamed/part_000 line 69: `t === 'JobPosting' ||
(Array.isArray(t) && t.includes('JobPosting'))`. -/
def isJobPostingType : Option Json → Bool
  | some (.str s) => s = "JobPosting"
  | some (.arr es) => es.any (fun e => match e with | .str s => s = "JobPosting" | _ => false)
  | _ => false

/-- The fields extractFromJsonLd maps out of a JobPosting entry
(src/unnamed/part_000 lines 70-76); values keep their JSON shape since the
source copies them as-is. -/
structure LdScanFields where
  title : Option Json
  company : Option Json
  datePosted : Option Json
  descriptionHtml : Option Json
  location : Option Json

/-- src/unnamed/part_000 line 75: the location chain
`(e.jobLocation && e.jobLocation.address && (address.addressLocality ||
address.addressRegion)) || null`. -/
def ldLocation (e : Json) : Option Json :=
  match e.getField "jobLocation" with
  | none => none
  | some jl =>
    if jl.truthy then
      match jl.getField "address" with
      | none => none
      | some ad =>
        if ad.truthy then
          jsOrNull (jsOr (ad.getField "addressLocality") (ad.getField "addressRegion"))
        else none
    else none

/-- src/unnamed/part_000 lines 67-77: the per-entry check and field
mapping inside the scan loop — a falsy entry is skipped, a JobPosting
entry yields its mapped fields. -/
def jobPostingFields (e : Json) : Option LdScanFields :=
  if e.truthy && isJobPostingType (typeField e) then
    some { title := jsOr (e.getField "title") (jsOrNull (e.getField "name")),
           company := jsOrNull ((e.getField "hiringOrganization").bind
             (fun h => h.getField "name")),
           datePosted := jsOrNull (e.getField "datePosted"),
           descriptionHtml := jsOrNull (e.getField "description"),
           location := ldLocation e }
  else none

/-- src/unnamed/part_000 lines 66-78: the inner `for (const e of arr)`
loop — first JobPosting entry wins. -/
def scanEntries : List Json → Option LdScanFields
  | [] => none
  | e :: rest =>
    match jobPostingFields e with
    | some f => some f
    | none => scanEntries rest

/-- src/unnamed/part_000 line 65: `Array.isArray(parsed) ? parsed : [parsed]`. -/
def entriesOf : Json → List Json
  | .arr es => es
  | j => [j]

/-- src/unnamed/part_000 lines 60-82 (extractFromJsonLd): walk the ld+json
script blocks; a block whose parse threw (none) is swallowed by the catch
and the scan continues; the first JobPosting found is returned, else none. -/
def extractFromJsonLd : List (Option Json) → Option LdScanFields
  | [] => none
  | b :: rest =>
    match b with
    | none => extractFromJsonLd rest
    | some parsed =>
      match scanEntries (entriesOf parsed) with
      | some f => some f
      | none => extractFromJsonLd rest

/-- The clean reading of one block: its parse outcome, scanned for a
JobPosting (none both for a malformed block and for a block without one). -/
def blockScan (b : Option Json) : Option LdScanFields :=
  b.bind (fun parsed => scanEntries (entriesOf parsed))

/-! ## Input sanitizing (part_000, part_003 v2)

`+x` coercion and Number.isFinite are the JS runtime's: a raw input enters
the model as `some q` when its numeric coercion is a finite number `q`,
and `none` when it is NaN or infinite. -/

/-- Number.MAX_SAFE_INTEGER. -/
def maxSafeInteger : ℚ := 9007199254740991

/-- src/unnamed/part_000 line 16:
`Number.isFinite(+raw) ? Math.max(1, +raw) : Number.MAX_SAFE_INTEGER`. -/
def sanitizeMaxItems (raw : Option ℚ) : ℚ :=
  match raw with
  | some v => max 1 v
  | none => maxSafeInteger

/-- src/unnamed/part_003 line 402:
`Number.isFinite(+v) && +v > 0 ? +v : 1`. -/
def sanitizeMaxPagesP3 (raw : Option ℚ) : ℚ :=
  match raw with
  | some v => if 0 < v then v else 1
  | none => 1

/-- src/unnamed/part_003 line 403:
`Number.isFinite(+v) && +v > 0 ? +v : 5`. -/
def sanitizeMaxConcurrencyP3 (raw : Option ℚ) : ℚ :=
  match raw with
  | some v => if 0 < v then v else 5
  | none => 5

/-! # Theorems -/

/-! ## Frontier helper lemmas -/

theorem frontierInv_empty : FrontierInv emptyFrontier := by
  constructor
  · simp [emptyFrontier]
  · intro u hu
    simp [emptyFrontier] at hu

theorem frontierInv_applyOp (f : Frontier) (op : FrontierOp) (h : FrontierInv f) :
    FrontierInv (applyOp f op) := by
  obtain ⟨hnd, hseen⟩ := h
  cases op with
  | enqueue u =>
    by_cases hu : u ∈ f.seen
    · simpa [applyOp, hu] using ⟨hnd, hseen⟩
    · simp only [applyOp, if_neg hu]
      constructor
      · have hnotin : u ∉ f.dequeued ++ f.queue := fun hmem => hu (hseen u hmem)
        rw [← List.append_assoc, List.nodup_append]
        refine ⟨hnd, List.nodup_singleton u, ?_⟩
        intro a ha hb
        rw [List.mem_singleton] at hb
        subst hb
        exact hnotin ha
      · intro x hx
        rw [← List.append_assoc, List.mem_append] at hx
        rcases hx with hx | hx
        · exact List.mem_cons_of_mem _ (hseen x hx)
        · rw [List.mem_singleton] at hx
          subst hx
          exact List.mem_cons_self _ _
  | dequeue =>
    simp only [applyOp]
    split
    · exact ⟨hnd, hseen⟩
    · rename_i u rest hq
      rw [hq] at hnd hseen
      constructor
      · have hperm : f.dequeued ++ u :: rest ≠ [] := by simp
        have hp : (u :: (f.dequeued ++ rest)).Nodup := List.perm_middle.nodup hnd
        simpa using hp
      · intro x hx
        apply hseen
        simp only [List.cons_append, List.mem_cons, List.mem_append] at hx ⊢
        tauto

theorem frontierInv_runOps (ops : List FrontierOp) :
    ∀ f : Frontier, FrontierInv f → FrontierInv (runOps f ops) := by
  induction ops with
  | nil =>
    intro f h
    simpa [runOps] using h
  | cons op rest ih =>
    intro f h
    have hstep : runOps f (op :: rest) = runOps (applyOp f op) rest := by
      simp [runOps]
    rw [hstep]
    exact ih _ (frontierInv_applyOp f op h)

theorem seen_subset_applyOp (f : Frontier) (op : FrontierOp) :
    f.seen ⊆ (applyOp f op).seen := by
  cases op with
  | enqueue u =>
    by_cases hu : u ∈ f.seen
    · simp [applyOp, hu]
    · simp only [applyOp, if_neg hu]
      intro x hx
      exact List.mem_cons_of_mem _ hx
  | dequeue =>
    simp only [applyOp]
    split
    · exact fun x hx => hx
    · exact fun x hx => hx

theorem nodup_addJobLink (acc : List String) (href : String) (h : acc.Nodup) :
    (addJobLink acc href).Nodup := by
  unfold addJobLink
  split_ifs with h1 h2
  · exact h
  · rw [List.nodup_append]
    refine ⟨h, List.nodup_singleton _, ?_⟩
    intro a ha hb
    rw [List.mem_singleton] at hb
    subst hb
    exact h2 ha
  · exact h

theorem nodup_foldl_addJobLink (hrefs : List String) :
    ∀ acc : List String, acc.Nodup → (hrefs.foldl addJobLink acc).Nodup := by
  induction hrefs with
  | nil =>
    intro acc h
    simpa using h
  | cons a rest ih =>
    intro acc h
    rw [List.foldl_cons]
    exact ih _ (nodup_addJobLink acc a h)

theorem nodup_addResolved (resolve : String → Option String) (acc : List String)
    (href : String) (h : acc.Nodup) : (addResolved resolve acc href).Nodup := by
  unfold addResolved
  cases resolve href with
  | none => exact h
  | some abs =>
    dsimp only
    split_ifs with h1
    · exact h
    · rw [List.nodup_append]
      refine ⟨h, List.nodup_singleton _, ?_⟩
      intro a ha hb
      rw [List.mem_singleton] at hb
      subst hb
      exact h1 ha

theorem nodup_foldl_addResolved (resolve : String → Option String) (hrefs : List String) :
    ∀ acc : List String, acc.Nodup →
      (hrefs.foldl (addResolved resolve) acc).Nodup := by
  induction hrefs with
  | nil =>
    intro acc h
    simpa using h
  | cons a rest ih =>
    intro acc h
    rw [List.foldl_cons]
    exact ih _ (nodup_addResolved resolve acc a h)

/-! ## Claim C2 -/

/-- C2: over every sequence of Frontier operations the dequeue history
never repeats a normalized URL, the seen-set only grows across any
operation, a URL already seen is never re-accepted (the enqueue is a
no-op, so a later abandonment cannot re-open it), and the per-page link
collectors of main.js handleSearchPage and part_000 findJobLinks return
duplicate-free link lists. -/
theorem frontier_never_dequeues_twice (ops : List FrontierOp)
    (resolve : String → Option String) (preferredHrefs allHrefs hrefs : List String) :
    (runOps emptyFrontier ops).dequeued.Nodup ∧
    (∀ f : Frontier, ∀ op : FrontierOp, f.seen ⊆ (applyOp f op).seen) ∧
    (∀ f : Frontier, ∀ u : String, u ∈ f.seen → applyOp f (.enqueue u) = f) ∧
    (collectJobLinks hrefs).Nodup ∧
    (findJobLinks resolve preferredHrefs allHrefs).Nodup := by
  refine ⟨?_, seen_subset_applyOp, ?_, ?_, ?_⟩
  · have h := frontierInv_runOps ops emptyFrontier frontierInv_empty
    exact (List.nodup_append.mp h.1).1
  · intro f u h
    simp [applyOp, h]
  · exact nodup_foldl_addJobLink hrefs [] List.nodup_nil
  · exact nodup_foldl_addResolved resolve allHrefs _
      (nodup_foldl_addResolved resolve preferredHrefs [] List.nodup_nil)

/-- Witness for C2 at concrete inputs: enqueuing the same URL twice leaves
the Frontier unchanged the second time, and a double enqueue followed by
two dequeues yields a duplicate-free dequeue history. -/
theorem frontier_never_dequeues_twice_witness :
    ("https://jooble.org/desc/1" ∈
      (runOps emptyFrontier [FrontierOp.enqueue "https://jooble.org/desc/1"]).seen) ∧
    applyOp (runOps emptyFrontier [FrontierOp.enqueue "https://jooble.org/desc/1"])
        (FrontierOp.enqueue "https://jooble.org/desc/1") =
      runOps emptyFrontier [FrontierOp.enqueue "https://jooble.org/desc/1"] ∧
    (runOps emptyFrontier [FrontierOp.enqueue "u", FrontierOp.enqueue "u",
        FrontierOp.dequeue, FrontierOp.dequeue]).dequeued.Nodup :=
  ⟨by decide,
   (frontier_never_dequeues_twice [] (fun _ => none) [] [] []).2.2.1 _
     "https://jooble.org/desc/1" (by decide),
   (frontier_never_dequeues_twice [FrontierOp.enqueue "u", FrontierOp.enqueue "u",
     FrontierOp.dequeue, FrontierOp.dequeue] (fun _ => none) [] [] []).1⟩

/-! ## Claim C1 -/

/-- C1: with `maxItems = 1` and two admitted DETAIL requests whose pages
both have titles, the legal event-loop schedule that runs both handlers
up to their awaited `Dataset.pushData` before either resumes hands 2
records to the output sink — the `saved < maxItems` guard is read before
the awaited push while `saved` is only incremented after it, so the
emitted-record count exceeds the configured budget. -/
theorem detail_budget_race :
    raceInit.maxItems = 1 ∧ (runDetailSched raceInit [0, 1, 0, 1]).emitted = 2 := by
  constructor
  · rfl
  · rfl

/-! ## Claim C4 -/

/-- Counterexample to C4 as stated: at status 500 the claim's rule order
gives TransportError before body matching is ever consulted, but the
source's gate tests the block-phrase body together with the hard statuses
BEFORE the generic `status >= 400` rule — so a 500 response whose body
mentions a captcha takes the blocked path (session retired, backoff
slept), while the same status with a neutral body takes the generic
HTTP-error path; an empty body is likewise blocked even at status 200,
where the claim's rules give Ok. -/
theorem classifier_order_counterexample :
    crawlGate 500 "please complete the captcha to continue" = BlockOutcome.blockedRetire ∧
    crawlGate 500 "internal server error" = BlockOutcome.httpError ∧
    crawlGate 200 "" = BlockOutcome.blockedRetire ∧
    classifySpec ⟨false, 500, "please complete the captcha to continue"⟩ =
      Classification.TransportError ∧
    classifySpec ⟨false, 200, ""⟩ = Classification.Ok := by
  refine ⟨by decide, by decide, by decide, by decide, by decide⟩

/-- C4 amended: the gate applies its rules in strict order and yields
exactly one outcome, but the empty-body test, the hard statuses
(401/403/429) and the body block-phrase match form ONE first rule (whose
blocked outcome retires the session except at 429, which only marks it
bad), and only then does `status >= 400` yield the generic failure;
transport errors bypass the handler and are generic failures. On every
FetchResult with a non-empty body that does not combine a generic `>= 400`
status with a block-phrase body, this agrees with the claim's rule order. -/
theorem classifier_amended (r : FetchResult) (hb : ¬ r.body = "")
    (hx : ¬(400 ≤ r.statusCode ∧
        ¬(r.statusCode = 401 ∨ r.statusCode = 403 ∨ r.statusCode = 429) ∧
        isCookieOrBotWall r.body = true)) :
    classifyCode r = classifySpec r := by
  rcases r with ⟨te, sc, body⟩
  simp only at hb hx
  cases te with
  | true => simp [classifyCode, classifySpec]
  | false =>
    by_cases h1 : sc = 401
    · subst h1
      simp [classifyCode, classifySpec, crawlGate]
    · by_cases h2 : sc = 403
      · subst h2
        simp [classifyCode, classifySpec, crawlGate]
      · by_cases h3 : sc = 429
        · subst h3
          simp [classifyCode, classifySpec, crawlGate]
        · by_cases h4 : 400 ≤ sc
          · have hw : isCookieOrBotWall body = false := by
              rcases Bool.eq_false_or_eq_true (isCookieOrBotWall body) with hw | hw
              · exact absurd ⟨h4, by tauto, hw⟩ hx
              · exact hw
            simp [classifyCode, classifySpec, crawlGate, hb, h1, h2, h3, h4, hw]
          · by_cases hw : isCookieOrBotWall body = true
            · simp [classifyCode, classifySpec, crawlGate, hb, h1, h2, h3, h4, hw]
            · simp [classifyCode, classifySpec, crawlGate, hb, h1, h2, h3, h4, hw]

/-- Witness for C4's amended statement at a concrete ordinary response. -/
theorem classifier_amended_witness :
    (¬ ("hello world" : String) = "") ∧
    classifyCode ⟨false, 200, "hello world"⟩ = classifySpec ⟨false, 200, "hello world"⟩ :=
  ⟨by decide, classifier_amended ⟨false, 200, "hello world"⟩ (by decide) (by decide)⟩

/-! ## Claim C5 -/

/-- Counterexample to C5 as stated: on the first retry decision
(retryCount 0, the claim's attempt 0) with the random draw 0.9 the source
computes a 1450 ms delay, but no multiplicative jitter in [0.5, 1.3)
makes the claim's formula `min(cap, base * 2 ^ attempt * jitter)` equal
1450 at attempt 0 with the source's constants base = 500, cap = 15000 —
the source's jitter is additive (`+ rand(0, 500)`) and its exponent is
retryCount + 1. -/
theorem backoff_formula_counterexample :
    codeBackoffMs 0 (9 / 10) = 1450 ∧
    ¬ ∃ j : ℚ, 1 / 2 ≤ j ∧ j < 13 / 10 ∧ specBackoffDelay 15000 500 0 j = 1450 := by
  constructor
  · unfold codeBackoffMs randUniform
    rw [min_eq_right (by norm_num)]
    norm_num
  · rintro ⟨j, hj1, hj2, hj⟩
    have h1 : (500 : ℚ) * 2 ^ (0 : ℕ) * j = 500 * j := by norm_num
    have h2 : (500 : ℚ) * 2 ^ (0 : ℕ) * j ≤ 15000 := by
      rw [h1]
      linarith
    rw [specBackoffDelay, min_eq_right h2, h1] at hj
    linarith

/-- C5 amended: the delay is `min(15000, 500 * 2 ^ (retryCount + 1) + u)`
with an additive jitter `u = 500 * draw` uniform in [0, 500); for every
retryCount and every draw the delay never exceeds the 15000 ms cap, is
non-decreasing in the retry count at a fixed draw (hence also in
expectation), and stays strictly between 0 and the un-capped term at the
next jitter bound. -/
theorem backoff_amended (a : ℕ) (j : ℚ) (h0 : 0 ≤ j) (hlt : j < 1) :
    codeBackoffMs a j = min 15000 (500 * 2 ^ (a + 1) + 500 * j) ∧
    codeBackoffMs a j ≤ 15000 ∧
    codeBackoffMs a j ≤ codeBackoffMs (a + 1) j ∧
    0 < codeBackoffMs a j ∧
    codeBackoffMs a j < 500 * 2 ^ (a + 1) + 500 := by
  have hpow : (2 : ℚ) ^ (a + 1) ≤ 2 ^ (a + 1 + 1) := by
    apply pow_le_pow_right₀ (by norm_num) (by omega)
  have hp : (0 : ℚ) < 2 ^ (a + 1) := by positivity
  refine ⟨?_, min_le_left _ _, ?_, ?_, ?_⟩
  · unfold codeBackoffMs randUniform
    congr 1
    ring
  · unfold codeBackoffMs
    apply min_le_min (le_refl _)
    unfold randUniform
    nlinarith
  · unfold codeBackoffMs
    apply lt_min
    · norm_num
    · unfold randUniform
      nlinarith
  · apply lt_of_le_of_lt (min_le_right _ _)
    unfold randUniform
    nlinarith

/-- Witness for C5's amended statement at retryCount 0 and draw 1/2. -/
theorem backoff_amended_witness :
    ((0 : ℚ) ≤ 1 / 2 ∧ (1 / 2 : ℚ) < 1) ∧
    codeBackoffMs 0 (1 / 2) ≤ 15000 ∧
    codeBackoffMs 0 (1 / 2) ≤ codeBackoffMs 1 (1 / 2) :=
  ⟨⟨by norm_num, by norm_num⟩,
   (backoff_amended 0 (1 / 2) (by norm_num) (by norm_num)).2.1,
   (backoff_amended 0 (1 / 2) (by norm_num) (by norm_num)).2.2.1⟩

/-! ## Claim C6 -/

/-- C6: in record-mode extraction (main v2 extractJobData) a field
populated by the JSON-LD JobPosting tier is never overwritten by the
heuristic tier: whatever the fallback locators would return, a non-empty
tier-1 title (and likewise company, location, salary, description) is the
one in the produced record, because each tier-2 lookup is guarded by the
field still being empty after tier 1. -/
theorem tier1_never_overwritten (ld : LdJobPosting) (locatorText : String → String)
    (url now : String) (ht : ¬ ld.title = "") :
    (extractJobData (some ld) locatorText url now).title = ld.title ∧
    (¬ ld.hiringOrganizationName = "" →
      (extractJobData (some ld) locatorText url now).company = ld.hiringOrganizationName) ∧
    (¬ ld.addressLocality = "" →
      (extractJobData (some ld) locatorText url now).location = ld.addressLocality) ∧
    (¬ ld.baseSalaryValue = "" →
      (extractJobData (some ld) locatorText url now).salary = ld.baseSalaryValue) ∧
    (¬ ld.description = "" →
      (extractJobData (some ld) locatorText url now).description = ld.description) := by
  unfold extractJobData
  simp only [ht, if_false]
  refine ⟨?_, ?_, ?_, ?_, ?_⟩ <;> intros <;> split_ifs <;> simp_all

/-- Witness for C6: structured data supplies "Backend Engineer" while
every fallback locator would yield "Frontend Dev"; the record's title is
the structured one. -/
theorem tier1_never_overwritten_witness :
    (¬ ("Backend Engineer" : String) = "") ∧
    (extractJobData (some ⟨"Backend Engineer", "Acme", "", "", "", "", ""⟩)
        (fun _ => "Frontend Dev") "https://jooble.org/desc/1" "t0").title =
      "Backend Engineer" :=
  ⟨by decide,
   (tier1_never_overwritten ⟨"Backend Engineer", "Acme", "", "", "", "", ""⟩
     (fun _ => "Frontend Dev") "https://jooble.org/desc/1" "t0" (by decide)).1⟩

/-! ## Claim C7 -/

/-- Counterexample to C7 as stated: a listing page with ZERO detail links
and no explicit no-results marker, at page 1 of maxPages 3 with an empty
budget (saved 0, planned 0, maxItems 50), makes the part_002 v3 handler
enqueue the next listing page even though the claim's condition (at least
one detail link found) is false — an empty result page does not halt
pagination in that variant. -/
theorem pagination_counterexample :
    (handleSearchP2 50 3 0 0 1 [] false).nextEnqueued = true ∧
    specNextPageCond false 2 3 false = false := by
  constructor
  · rfl
  · rfl

/-- C7 amended: in the main v1 handler the next listing page is enqueued
iff the current page is below maxPages AND at least one detail link was
collected; in the part_002 v3 handler it is enqueued only when the
current page is below maxPages AND the budget check
`saved + plannedDetails < maxItems` passes with the post-admission
planned count — the found-a-link condition is absent there, and an empty
page halts pagination only when an explicit no-results marker is also
present. -/
theorem pagination_amended (maxItems maxPages saved planned page : Nat)
    (links : List Bool) (noRes : Bool) (jobLinks : List String) :
    (handleSearchMainNext jobLinks page maxPages = true ↔
      page < maxPages ∧ jobLinks ≠ []) ∧
    ((handleSearchP2 maxItems maxPages saved planned page links noRes).nextEnqueued = true →
      page < maxPages ∧
      saved + (handleSearchP2 maxItems maxPages saved planned page links noRes).plannedAfter
        < maxItems) := by
  constructor
  · simp [handleSearchMainNext, List.length_pos]
  · intro h
    unfold handleSearchP2 at h ⊢
    split_ifs at h ⊢ with h1 h2
    exact of_decide_eq_true h

/-- Witness for C7's amended statement: one accepted link, page 1 of 3,
budget 50 — the next page is enqueued and the budget condition holds. -/
theorem pagination_amended_witness :
    ((handleSearchP2 50 3 0 0 1 [true] false).nextEnqueued = true) ∧
    (1 < 3 ∧ 0 + (handleSearchP2 50 3 0 0 1 [true] false).plannedAfter < 50) :=
  ⟨by rfl, (pagination_amended 50 3 0 0 1 [true] false []).2 (by rfl)⟩

/-! ## Claim C3 -/

/-- C3: on a detail page where every selector comes back empty, the main
v1 handler emits nothing (the title gate), but the p3 v1 handler hands a
record with an empty title to the output sink — the gate is missing in
that variant, contradicting the spec's required-field rule. -/
theorem titleless_detail_emission :
    handleDetailPageMain (fun _ => "") (fun _ => "") (fun _ => "")
      "https://jooble.org/desc/x" "t0" = none ∧
    ∃ r : P3JobRecord,
      handleDetailPageP3 (fun _ => "") (fun _ => none) (fun s => s)
        "https://jooble.org/desc/x" "t0" = some r ∧ r.title = "" := by
  refine ⟨rfl, ⟨_, rfl, rfl⟩⟩

/-! ## Cookie-jar helper lemmas -/

theorem jarGet_cons (p : String × String) (rest : List (String × String)) (m : String) :
    jarGet (p :: rest) m = if p.1 = m then some p.2 else jarGet rest m := by
  by_cases h : p.1 = m
  · simp [jarGet, List.find?_cons, h]
  · simp [jarGet, List.find?_cons, h]

theorem setCookie_cons_miss (p : String × String) (rest : List (String × String))
    (n v : String) (hp : ¬ p.1 = n) :
    setCookie (p :: rest) n v = p :: setCookie rest n v := by
  by_cases ha : rest.any (fun q => decide (q.1 = n)) = true
  · simp [setCookie, hp, ha]
  · simp [setCookie, hp, ha]

theorem setCookie_cons_hit (p : String × String) (rest : List (String × String))
    (n v : String) (hp : p.1 = n) :
    setCookie (p :: rest) n v =
      (n, v) :: rest.map (fun q => if q.1 = n then (n, v) else q) := by
  simp [setCookie, hp]

theorem jarGet_mapReplace (n v m : String) (hm : ¬ m = n)
    (rest : List (String × String)) :
    jarGet (rest.map (fun q => if q.1 = n then (n, v) else q)) m = jarGet rest m := by
  induction rest with
  | nil => rfl
  | cons q rs ih =>
    by_cases hq : q.1 = n
    · have hqm : ¬ q.1 = m := fun h => hm (h.symm.trans hq)
      rw [List.map_cons, if_pos hq, jarGet_cons, jarGet_cons,
        if_neg (fun h => hm h.symm), if_neg hqm]
      exact ih
    · rw [List.map_cons, if_neg hq, jarGet_cons, jarGet_cons]
      by_cases hqm : q.1 = m
      · rw [if_pos hqm, if_pos hqm]
      · rw [if_neg hqm, if_neg hqm]
        exact ih

theorem jarGet_setCookie_self (jar : List (String × String)) (n v : String) :
    jarGet (setCookie jar n v) n = some v := by
  induction jar with
  | nil => simp [setCookie, jarGet, List.find?_cons]
  | cons p rest ih =>
    by_cases hp : p.1 = n
    · rw [setCookie_cons_hit p rest n v hp, jarGet_cons]
      simp
    · rw [setCookie_cons_miss p rest n v hp, jarGet_cons, if_neg hp]
      exact ih

theorem jarGet_setCookie_other (jar : List (String × String)) (n v m : String)
    (hm : ¬ m = n) : jarGet (setCookie jar n v) m = jarGet jar m := by
  induction jar with
  | nil =>
    have hnm : ¬ n = m := fun h => hm h.symm
    simp [setCookie, jarGet, List.find?_cons, hnm]
  | cons p rest ih =>
    by_cases hp : p.1 = n
    · have hpm : ¬ p.1 = m := fun h => hm (h.symm.trans hp)
      rw [setCookie_cons_hit p rest n v hp, jarGet_cons, jarGet_cons,
        if_neg (fun h => hm h.symm), if_neg hpm]
      exact jarGet_mapReplace n v m hm rest
    · rw [setCookie_cons_miss p rest n v hp, jarGet_cons, jarGet_cons]
      by_cases hpm : p.1 = m
      · rw [if_pos hpm, if_pos hpm]
      · rw [if_neg hpm, if_neg hpm]
        exact ih

theorem delCookie_cons (p : String × String) (rest : List (String × String)) (n : String) :
    delCookie (p :: rest) n =
      if p.1 = n then delCookie rest n else p :: delCookie rest n := by
  by_cases hp : p.1 = n
  · simp [delCookie, hp]
  · simp [delCookie, hp]

theorem jarGet_delCookie_self (jar : List (String × String)) (n : String) :
    jarGet (delCookie jar n) n = none := by
  induction jar with
  | nil => rfl
  | cons p rest ih =>
    rw [delCookie_cons]
    by_cases hp : p.1 = n
    · rw [if_pos hp]
      exact ih
    · rw [if_neg hp, jarGet_cons, if_neg hp]
      exact ih

theorem jarGet_delCookie_other (jar : List (String × String)) (n m : String)
    (hm : ¬ m = n) : jarGet (delCookie jar n) m = jarGet jar m := by
  induction jar with
  | nil => rfl
  | cons p rest ih =>
    rw [delCookie_cons, jarGet_cons]
    by_cases hp : p.1 = n
    · have hpm : ¬ p.1 = m := fun h => hm (h.symm.trans hp)
      rw [if_pos hp, if_neg hpm]
      exact ih
    · rw [if_neg hp, jarGet_cons]
      by_cases hpm : p.1 = m
      · rw [if_pos hpm, if_pos hpm]
      · rw [if_neg hpm, if_neg hpm]
        exact ih

theorem mergeCookies_cons (jar : List (String × String)) (u : String × String)
    (rest : List (String × String)) :
    mergeCookies jar (u :: rest) =
      mergeCookies (if u.2 = "" then delCookie jar u.1 else setCookie jar u.1 u.2) rest := by
  simp [mergeCookies]

theorem jarGet_mergeCookies_notMem (updates : List (String × String)) :
    ∀ jar : List (String × String), ∀ n : String, n ∉ updates.map Prod.fst →
      jarGet (mergeCookies jar updates) n = jarGet jar n := by
  induction updates with
  | nil =>
    intro jar n _
    rfl
  | cons u rest ih =>
    intro jar n h
    simp only [List.map_cons, List.mem_cons] at h
    push_neg at h
    obtain ⟨h1, h2⟩ := h
    rw [mergeCookies_cons]
    rw [ih _ n h2]
    split_ifs with hv
    · exact jarGet_delCookie_other jar u.1 n h1
    · exact jarGet_setCookie_other jar u.1 u.2 n h1

theorem jarGet_mergeCookies_overwrite (updates : List (String × String)) :
    ∀ jar : List (String × String), ∀ n v : String,
      (updates.map Prod.fst).Nodup → (n, v) ∈ updates → ¬ v = "" →
      jarGet (mergeCookies jar updates) n = some v := by
  induction updates with
  | nil =>
    intro jar n v _ hmem _
    simp at hmem
  | cons u rest ih =>
    intro jar n v hnd hmem hv
    rw [List.map_cons, List.nodup_cons] at hnd
    have hnd2 : (rest.map Prod.fst).Nodup := hnd.2
    rcases List.mem_cons.mp hmem with heq | hmem2
    · have hu : u = (n, v) := heq.symm
      subst hu
      have hn : n ∉ rest.map Prod.fst := by simpa using hnd.1
      rw [mergeCookies_cons]
      simp only [if_neg hv]
      rw [jarGet_mergeCookies_notMem rest _ n hn]
      exact jarGet_setCookie_self jar n v
    · rw [mergeCookies_cons]
      exact ih _ n v hnd2 hmem2 hv

theorem jarGet_mergeCookies_remove (updates : List (String × String)) :
    ∀ jar : List (String × String), ∀ n : String,
      (updates.map Prod.fst).Nodup → (n, "") ∈ updates →
      jarGet (mergeCookies jar updates) n = none := by
  induction updates with
  | nil =>
    intro jar n _ hmem
    simp at hmem
  | cons u rest ih =>
    intro jar n hnd hmem
    rw [List.map_cons, List.nodup_cons] at hnd
    have hnd2 : (rest.map Prod.fst).Nodup := hnd.2
    rcases List.mem_cons.mp hmem with heq | hmem2
    · have hu : u = (n, "") := heq.symm
      subst hu
      have hn : n ∉ rest.map Prod.fst := by simpa using hnd.1
      rw [mergeCookies_cons]
      simp only [if_pos rfl]
      rw [jarGet_mergeCookies_notMem rest _ n hn]
      exact jarGet_delCookie_self jar n
    · rw [mergeCookies_cons]
      exact ih _ n hnd2 hmem2

/-! ## Claim C8 -/

/-- C8: merging parsed Set-Cookie updates into a cookie jar overwrites a
same-named cookie with its new value, removes a cookie whose new value is
empty, and leaves every other cookie of the jar untouched — for every
existing jar and every update set (with one entry per cookie name, as
parseSetCookieHeaders produces). -/
theorem cookie_merge_semantics (jar updates : List (String × String))
    (hnd : (updates.map Prod.fst).Nodup) :
    (∀ n v : String, (n, v) ∈ updates → ¬ v = "" →
      jarGet (mergeCookies jar updates) n = some v) ∧
    (∀ n : String, (n, "") ∈ updates →
      jarGet (mergeCookies jar updates) n = none) ∧
    (∀ n : String, n ∉ updates.map Prod.fst →
      jarGet (mergeCookies jar updates) n = jarGet jar n) := by
  refine ⟨?_, ?_, ?_⟩
  · intro n v hmem hv
    exact jarGet_mergeCookies_overwrite updates jar n v hnd hmem hv
  · intro n hmem
    exact jarGet_mergeCookies_remove updates jar n hnd hmem
  · intro n hn
    exact jarGet_mergeCookies_notMem updates jar n hn

/-- Witness for C8 on a concrete jar and update set: "a" is overwritten,
"b" is removed by its empty value, untouched "d" is preserved. -/
theorem cookie_merge_semantics_witness :
    ((([("a", "9"), ("b", ""), ("c", "3")] : List (String × String)).map Prod.fst).Nodup) ∧
    jarGet (mergeCookies [("a", "1"), ("b", "2"), ("d", "7")]
      [("a", "9"), ("b", ""), ("c", "3")]) "a" = some "9" ∧
    jarGet (mergeCookies [("a", "1"), ("b", "2"), ("d", "7")]
      [("a", "9"), ("b", ""), ("c", "3")]) "b" = none ∧
    jarGet (mergeCookies [("a", "1"), ("b", "2"), ("d", "7")]
      [("a", "9"), ("b", ""), ("c", "3")]) "d" = some "7" :=
  ⟨by decide,
   (cookie_merge_semantics [("a", "1"), ("b", "2"), ("d", "7")]
     [("a", "9"), ("b", ""), ("c", "3")] (by decide)).1 "a" "9" (by decide) (by decide),
   (cookie_merge_semantics [("a", "1"), ("b", "2"), ("d", "7")]
     [("a", "9"), ("b", ""), ("c", "3")] (by decide)).2.1 "b" (by decide),
   (cookie_merge_semantics [("a", "1"), ("b", "2"), ("d", "7")]
     [("a", "9"), ("b", ""), ("c", "3")] (by decide)).2.2 "d" (by decide)⟩

/-! ## Claim C9 -/

/-- C9: the structured-data scan is total over the parse outcomes of the
page's ld+json blocks — a block whose parse failed (none) is skipped and
scanning continues, and the scan over any block list equals the clean
first-JobPosting search: no outcome other than the first JobPosting's
fields or none is possible, for every input. -/
theorem jsonld_scan_total (blocks : List (Option Json)) :
    extractFromJsonLd (none :: blocks) = extractFromJsonLd blocks ∧
    extractFromJsonLd blocks = blocks.findSome? blockScan := by
  constructor
  · rfl
  · induction blocks with
    | nil => rfl
    | cons b rest ih =>
      cases b with
      | none => simpa [extractFromJsonLd, blockScan] using ih
      | some parsed =>
        cases hscan : scanEntries (entriesOf parsed) with
        | none => simpa [extractFromJsonLd, blockScan, hscan] using ih
        | some f => simp [extractFromJsonLd, blockScan, hscan]

/-! ## Claim C10 -/

/-- Counterexample to C10 as stated: a finite maxPages input of 0.5 is
below 1, yet the p3 v2 sanitizer keeps it (the code replaces only
non-finite or non-positive values), so it is NOT replaced by a positive
default as the claim requires. -/
theorem sanitize_counterexample :
    sanitizeMaxPagesP3 (some (1 / 2)) = 1 / 2 ∧
    ¬ ((1 : ℚ) ≤ 1 / 2) ∧
    ¬ sanitizeMaxPagesP3 (some (1 / 2)) = 1 := by
  refine ⟨?_, by norm_num, ?_⟩
  · simp only [sanitizeMaxPagesP3]
    rw [if_pos (by norm_num)]
  · simp only [sanitizeMaxPagesP3]
    rw [if_pos (by norm_num)]
    norm_num

/-- C10 amended: a maxItems input that does not coerce to a finite number
becomes Number.MAX_SAFE_INTEGER and a finite one is clamped up to at
least 1; a non-finite or NON-POSITIVE (≤ 0, not < 1) maxPages /
maxConcurrency is replaced by the positive defaults 1 / 5; hence for
every input the crawl starts with strictly positive limits. -/
theorem sanitize_amended (rawItems rawPages rawConc : Option ℚ) :
    1 ≤ sanitizeMaxItems rawItems ∧
    sanitizeMaxItems none = maxSafeInteger ∧
    0 < sanitizeMaxPagesP3 rawPages ∧
    0 < sanitizeMaxConcurrencyP3 rawConc ∧
    (∀ v : ℚ, v ≤ 0 →
      sanitizeMaxPagesP3 (some v) = 1 ∧ sanitizeMaxConcurrencyP3 (some v) = 5) := by
  refine ⟨?_, rfl, ?_, ?_, ?_⟩
  · cases rawItems with
    | none => norm_num [sanitizeMaxItems, maxSafeInteger]
    | some v => simp [sanitizeMaxItems, le_max_left]
  · cases rawPages with
    | none => norm_num [sanitizeMaxPagesP3]
    | some v =>
      simp only [sanitizeMaxPagesP3]
      split_ifs with h
      · exact h
      · norm_num
  · cases rawConc with
    | none => norm_num [sanitizeMaxConcurrencyP3]
    | some v =>
      simp only [sanitizeMaxConcurrencyP3]
      split_ifs with h
      · exact h
      · norm_num
  · intro v hv
    constructor
    · simp [sanitizeMaxPagesP3, not_lt.mpr hv]
    · simp [sanitizeMaxConcurrencyP3, not_lt.mpr hv]

/-- Witness for C10's amended statement at concrete inputs: maxPages 0 is
replaced by 1, and maxItems -3 is clamped to at least 1. -/
theorem sanitize_amended_witness :
    ((0 : ℚ) ≤ 0) ∧ sanitizeMaxPagesP3 (some 0) = 1 ∧ 1 ≤ sanitizeMaxItems (some (-3)) :=
  ⟨le_refl 0,
   ((sanitize_amended (some (-3)) (some 0) none).2.2.2.2 0 (le_refl 0)).1,
   (sanitize_amended (some (-3)) (some 0) none).1⟩

end Jooble
